import Mathlib

/-!
Verification of the symbol-detection core of the image-processing service
(`detect_double_rectangles`, `detect_circles_with_grids`, `detect_ovals`,
`detect_symbols` in `python-services/image-processing-service/main.py`).

The OpenCV shape primitives (grayscale conversion, adaptive thresholding,
contour extraction, polygon simplification, Hough transforms, ellipse
fitting) are external collaborators: their per-call results enter the
embedding as explicit inputs (contour data, circle lists, line lists, fitted
axes).  The detector logic itself — the area/shape/nesting/angle/quality
filters and the construction of the emitted symbol records — is translated
directly from the source.  Floating-point arithmetic is idealised as exact
rational arithmetic; the float constant `np.pi` is embedded as the exact
value of the IEEE-754 double that `numpy` supplies; Python `int(...)`
conversions are embedded as truncation toward zero; the `uint16` arithmetic
performed on the Hough-circle coordinates (numpy `uint16` scalars) is
embedded with explicit reduction modulo 2^16.
-/

/-- The exact rational value of the IEEE-754 double `np.pi`
(3.141592653589793115997963468544185161590576171875). -/
def npPi : ℚ := 884279719003555 / 281474976710656

/-- Python `int(...)` applied to a float: truncation toward zero. -/
def pyInt (q : ℚ) : Int :=
  if q < 0 then -(⌊-q⌋) else ⌊q⌋

/-- `numpy` `uint16` wrap-around for addition results. -/
def u16 (n : Nat) : Nat := n % 65536

/-- `uint16` subtraction `a - b` with wrap-around (numpy scalar semantics). -/
def u16sub (a b : Nat) : Nat := (a % 65536 + 65536 - b % 65536) % 65536

/-- `uint16` addition `a + b` with wrap-around (numpy scalar semantics). -/
def u16add (a b : Nat) : Nat := (a + b) % 65536

/-- Axis-aligned rectangle as returned by `cv2.boundingRect`: corner plus
pixel extents. -/
structure Rect where
  x : Int
  y : Int
  w : Int
  h : Int
deriving DecidableEq, Repr

/-- The `boundingBox` object serialised with every detected symbol. -/
structure BoundingBox where
  x : Int
  y : Int
  width : Int
  height : Int
  points : List (Int × Int)
deriving DecidableEq, Repr

/-- The `type` tag of a detected symbol. -/
inductive SymbolType where
  | DoubleRectangle
  | CircleWithGrid
  | Oval
deriving DecidableEq, Repr

/-- One detected-symbol record as emitted by the detectors. -/
structure DetectedSymbol where
  type : SymbolType
  boundingBox : BoundingBox
  confidence : ℚ
  area : Int
deriving DecidableEq, Repr

/-- Dimensions of the decoded input pixel buffer (`img.shape[0]` = height,
`img.shape[1]` = width). -/
structure Image where
  width : Nat
  height : Nat
deriving DecidableEq, Repr

/-- Minimum of a nonempty collection given as head plus tail. -/
def intsMin (a : Int) (as : List Int) : Int := as.foldl min a

/-- Maximum of a nonempty collection given as head plus tail. -/
def intsMax (a : Int) (as : List Int) : Int := as.foldl max a

/-- `cv2.boundingRect` on a point list: upright rectangle with inclusive
pixel extents (`w = maxx - minx + 1`). -/
def boundingRect (pts : List (Int × Int)) : Rect :=
  match pts with
  | [] => { x := 0, y := 0, w := 0, h := 0 }
  | p :: ps =>
      { x := intsMin p.1 (ps.map Prod.fst)
        y := intsMin p.2 (ps.map Prod.snd)
        w := intsMax p.1 (ps.map Prod.fst) - intsMin p.1 (ps.map Prod.fst) + 1
        h := intsMax p.2 (ps.map Prod.snd) - intsMin p.2 (ps.map Prod.snd) + 1 }

/-- Models the grayscale-conversion primitive `cv2.cvtColor`: OpenCV asserts
that the source matrix is nonempty, so a buffer with a degenerate (zero)
dimension makes the very first step of every detector raise; the endpoint
turns the exception into an error response. -/
def cvtColorGray (img : Image) : Except String Unit :=
  if img.width = 0 ∨ img.height = 0 then Except.error "empty input image"
  else Except.ok ()

/-! ## Double-Rectangle Detector

`detect_double_rectangles`: the contour forest and hierarchy produced by
`cv2.findContours(..., RETR_TREE, ...)` enter as inputs.  For each contour
the primitives supply its enclosed area (`cv2.contourArea`) and its
simplified polygon (`cv2.approxPolyDP` at tolerance 2 percent of the
perimeter); the hierarchy supplies the first-child index (`-1` for none). -/

/-- Per-contour data supplied by the contour primitives to the
double-rectangle detector: `cv2.contourArea(contour)` and the polygon
`cv2.approxPolyDP(contour, 0.02 * arcLength, True)`. -/
structure ContourData where
  area : ℚ
  approx : List (Int × Int)
deriving DecidableEq, Repr

/-- The strict-containment test on bounding rectangles
(`child_x > x and child_y > y and child_x + child_w < x + w and
child_y + child_h < y + h`). -/
def strictlyInside (child parent : Rect) : Bool :=
  decide (parent.x < child.x) && decide (parent.y < child.y) &&
    decide (child.x + child.w < parent.x + parent.w) &&
    decide (child.y + child.h < parent.y + parent.h)

/-- The nested-child test: child area positive and below 0.8 of the parent
area, child simplifies to a quadrilateral, child bounding box strictly
inside the parent bounding box. -/
def childQualifies (parentArea : ℚ) (parentBox : Rect) (child : ContourData) :
    Bool :=
  if 0 < child.area ∧ child.area < parentArea * (4/5) then
    if child.approx.length = 4 then
      strictlyInside (boundingRect child.approx) parentBox
    else false
  else false

/-- The `has_nested` flag for contour `c` whose hierarchy first-child index
is `childIdx` (the detector looks the child contour up in the flat contour
list; `-1` means no child). -/
def hasNested (cs : List ContourData) (c : ContourData) (childIdx : Int) :
    Bool :=
  if childIdx ≠ -1 then
    match cs.get? childIdx.toNat with
    | some child => childQualifies c.area (boundingRect c.approx) child
    | none => false
  else false

/-- The symbol record emitted for a matched double rectangle: fixed 0.85
confidence, bounding box and polygon points from the parent quadrilateral,
`int(area)` of the parent contour area. -/
def rectSymbol (c : ContourData) : DetectedSymbol :=
  { type := SymbolType.DoubleRectangle
    boundingBox :=
      { x := (boundingRect c.approx).x
        y := (boundingRect c.approx).y
        width := (boundingRect c.approx).w
        height := (boundingRect c.approx).h
        points := c.approx }
    confidence := 17/20
    area := pyInt c.area }

/-- Processing of one contour of the forest: area filter at 500,
quadrilateral filter, nested-child check, emission. -/
def rectProcess (cs : List ContourData) (c : ContourData) (childIdx : Int) :
    Option DetectedSymbol :=
  if c.area < 500 then none
  else if c.approx.length = 4 then
    if hasNested cs c childIdx then some (rectSymbol c) else none
  else none

/-- Body of `detect_double_rectangles` after the primitives ran: iterate the
contour list in step with the hierarchy first-child row; a `None` hierarchy
(blank input) short-circuits to the empty list. -/
def doubleRectanglesCore (cs : List ContourData) (hier : Option (List Int)) :
    List DetectedSymbol :=
  match hier with
  | none => []
  | some firstChild =>
      (cs.zip firstChild).filterMap fun pc => rectProcess cs pc.1 pc.2

/-- `detect_double_rectangles`: grayscale conversion (which fails on a
degenerate buffer) followed by the contour scan. -/
def detect_double_rectangles (img : Image) (cs : List ContourData)
    (hier : Option (List Int)) : Except String (List DetectedSymbol) :=
  match cvtColorGray img with
  | Except.error e => Except.error e
  | Except.ok _ => Except.ok (doubleRectanglesCore cs hier)

/-! ## Grid-Circle Detector

`detect_circles_with_grids`: the Hough circle transform result (rounded and
cast to `uint16` by `np.uint16(np.around(circles))`) enters as an optional
list of circles; the per-circle masked-ROI edge/line pipeline
(`cv2.Canny` + `cv2.HoughLinesP`) enters as an oracle from circles to an
optional line list; `np.arctan2(dy, dx) * 180 / np.pi` enters as an oracle
from the integer coordinate differences to the angle in degrees. -/

/-- One circle returned by the Hough transform, as `uint16` values. -/
structure HoughCircle where
  cx : Nat
  cy : Nat
  r : Nat
deriving DecidableEq, Repr

/-- One line segment returned by the probabilistic line transform. -/
structure LineSeg where
  x1 : Int
  y1 : Int
  x2 : Int
  y2 : Int
deriving DecidableEq, Repr

/-- `padding = int(radius * 0.2)`. -/
def circlePadding (c : HoughCircle) : Nat := (pyInt ((c.r : ℚ) * (1/5))).toNat

/-- `x1 = max(0, int(center_x - radius - padding))` under numpy `uint16`
scalar arithmetic (the subtraction wraps, so the value is never negative
and the outer `max` is the identity). -/
def roiX1 (c : HoughCircle) : Nat := max 0 (u16sub (u16sub c.cx c.r) (circlePadding c))

/-- `y1 = max(0, int(center_y - radius - padding))`. -/
def roiY1 (c : HoughCircle) : Nat := max 0 (u16sub (u16sub c.cy c.r) (circlePadding c))

/-- `x2 = min(img.shape[1], int(center_x + radius + padding))`. -/
def roiX2 (img : Image) (c : HoughCircle) : Nat :=
  min img.width (u16add (u16add c.cx c.r) (circlePadding c))

/-- `y2 = min(img.shape[0], int(center_y + radius + padding))`. -/
def roiY2 (img : Image) (c : HoughCircle) : Nat :=
  min img.height (u16add (u16add c.cy c.r) (circlePadding c))

/-- Angle-based classification of one line segment: horizontal below 15 or
above 165 degrees, else vertical strictly between 75 and 105 degrees, else
discarded.  `atan2deg dy dx` is the primitive `arctan2` scaled to degrees. -/
inductive LineClass where
  | horizontal
  | vertical
  | discarded
deriving DecidableEq, Repr

/-- Classification of one segment by `angle = abs(atan2(dy, dx) * 180 / pi)`. -/
def classifyLine (atan2deg : Int → Int → ℚ) (l : LineSeg) : LineClass :=
  if |atan2deg (l.y2 - l.y1) (l.x2 - l.x1)| < 15 ∨
      165 < |atan2deg (l.y2 - l.y1) (l.x2 - l.x1)| then LineClass.horizontal
  else if 75 < |atan2deg (l.y2 - l.y1) (l.x2 - l.x1)| ∧
      |atan2deg (l.y2 - l.y1) (l.x2 - l.x1)| < 105 then LineClass.vertical
  else LineClass.discarded

/-- `len(horizontal_lines)`. -/
def horizCount (atan2deg : Int → Int → ℚ) (lines : List LineSeg) : Nat :=
  (lines.filter fun l => classifyLine atan2deg l = LineClass.horizontal).length

/-- `len(vertical_lines)`. -/
def vertCount (atan2deg : Int → Int → ℚ) (lines : List LineSeg) : Nat :=
  (lines.filter fun l => classifyLine atan2deg l = LineClass.vertical).length

/-- `grid_quality = min(1.0, (h * v) / 4.0)`. -/
def gridQuality (h v : Nat) : ℚ := min 1 ((h * v : ℚ) / 4)

/-- The symbol record emitted for an accepted circle: square box of side
`int(radius * 2)` at `(int(center_x - radius), int(center_y - radius))`
(both computed in `uint16` arithmetic), confidence
`min(0.95, 0.6 + grid_quality * 0.3)`, area `int(pi * radius * radius)`. -/
def circleSymbol (c : HoughCircle) (h v : Nat) : DetectedSymbol :=
  { type := SymbolType.CircleWithGrid
    boundingBox :=
      { x := (u16sub c.cx c.r : Nat)
        y := (u16sub c.cy c.r : Nat)
        width := (u16 (c.r * 2) : Nat)
        height := (u16 (c.r * 2) : Nat)
        points :=
          [((u16sub c.cx c.r : Nat), (u16sub c.cy c.r : Nat)),
            ((u16sub c.cx c.r : Nat) + (u16 (c.r * 2) : Nat),
              (u16sub c.cy c.r : Nat)),
            ((u16sub c.cx c.r : Nat) + (u16 (c.r * 2) : Nat),
              (u16sub c.cy c.r : Nat) + (u16 (c.r * 2) : Nat)),
            ((u16sub c.cx c.r : Nat),
              (u16sub c.cy c.r : Nat) + (u16 (c.r * 2) : Nat))] }
    confidence := min (19/20) (3/5 + gridQuality h v * (3/10))
    area := pyInt (npPi * (c.r : ℚ) * (c.r : ℚ)) }

/-- Processing of one Hough circle: radius filter at 15, ROI construction
with its degeneracy checks, line transform, classification, grid test. -/
def circleProcess (img : Image) (linesOf : HoughCircle → Option (List LineSeg))
    (atan2deg : Int → Int → ℚ) (c : HoughCircle) : Option DetectedSymbol :=
  if c.r < 15 then none
  else if roiX2 img c ≤ roiX1 c ∨ roiY2 img c ≤ roiY1 c then none
  else if (roiY2 img c - roiY1 c) * (roiX2 img c - roiX1 c) = 0 then none
  else
    match linesOf c with
    | none => none
    | some lines =>
        if lines.length < 4 then none
        else if 2 ≤ horizCount atan2deg lines ∧ 2 ≤ vertCount atan2deg lines
        then some (circleSymbol c (horizCount atan2deg lines)
          (vertCount atan2deg lines))
        else none

/-- Body of `detect_circles_with_grids` after the primitives ran: a `None`
Hough result short-circuits to the empty list. -/
def circlesWithGridsCore (img : Image) (circles : Option (List HoughCircle))
    (linesOf : HoughCircle → Option (List LineSeg)) (atan2deg : Int → Int → ℚ) :
    List DetectedSymbol :=
  match circles with
  | none => []
  | some cl => cl.filterMap (circleProcess img linesOf atan2deg)

/-- `detect_circles_with_grids`: grayscale conversion followed by the
circle scan. -/
def detect_circles_with_grids (img : Image) (circles : Option (List HoughCircle))
    (linesOf : HoughCircle → Option (List LineSeg)) (atan2deg : Int → Int → ℚ) :
    Except String (List DetectedSymbol) :=
  match cvtColorGray img with
  | Except.error e => Except.error e
  | Except.ok _ => Except.ok (circlesWithGridsCore img circles linesOf atan2deg)

/-! ## Oval Detector

`detect_ovals`: the external contours of the edge image enter as inputs;
for each contour the primitives supply its point list, its area
(`cv2.contourArea`) and the axes of the fitted ellipse when
`cv2.fitEllipse` succeeds (`none` models the `cv2.error` raised on
degenerate point sets, caught and skipped by the detector). -/

/-- Per-contour data supplied to the oval detector. -/
structure OvalContour where
  pts : List (Int × Int)
  area : ℚ
  fit : Option (ℚ × ℚ)
deriving DecidableEq, Repr

/-- `major_axis = max(axes)`. -/
def majorAxis (axes : ℚ × ℚ) : ℚ := max axes.1 axes.2

/-- `minor_axis = min(axes)`. -/
def minorAxis (axes : ℚ × ℚ) : ℚ := min axes.1 axes.2

/-- `ellipse_area = np.pi * (major_axis / 2) * (minor_axis / 2)`. -/
def ellipseArea (axes : ℚ × ℚ) : ℚ :=
  npPi * (majorAxis axes / 2) * (minorAxis axes / 2)

/-- `fit_quality = area / ellipse_area`. -/
def fitQuality (area : ℚ) (axes : ℚ × ℚ) : ℚ := area / ellipseArea axes

/-- `aspect_ratio = minor_axis / major_axis if major_axis > 0 else 0`. -/
def aspectRatio (axes : ℚ × ℚ) : ℚ :=
  if 0 < majorAxis axes then minorAxis axes / majorAxis axes else 0

/-- The symbol record emitted for an accepted oval: bounding rectangle of
the raw contour as box and polygon, confidence
`min(0.95, 0.65 + fit_quality * 0.25)`, area `int(area)` of the raw
contour area. -/
def ovalSymbol (c : OvalContour) (fq : ℚ) : DetectedSymbol :=
  { type := SymbolType.Oval
    boundingBox :=
      { x := (boundingRect c.pts).x
        y := (boundingRect c.pts).y
        width := (boundingRect c.pts).w
        height := (boundingRect c.pts).h
        points :=
          [((boundingRect c.pts).x, (boundingRect c.pts).y),
            ((boundingRect c.pts).x + (boundingRect c.pts).w,
              (boundingRect c.pts).y),
            ((boundingRect c.pts).x + (boundingRect c.pts).w,
              (boundingRect c.pts).y + (boundingRect c.pts).h),
            ((boundingRect c.pts).x,
              (boundingRect c.pts).y + (boundingRect c.pts).h)] }
    confidence := min (19/20) (13/20 + fq * (1/4))
    area := pyInt c.area }

/-- Processing of one contour by the oval detector: area filter at 300,
five-point minimum for the ellipse fit, fit failure skip, positive ellipse
area requirement, fit-quality band, aspect-ratio band, emission. -/
def ovalProcess (c : OvalContour) : Option DetectedSymbol :=
  if c.area < 300 then none
  else if c.pts.length < 5 then none
  else
    match c.fit with
    | none => none
    | some axes =>
        if 0 < ellipseArea axes then
          if fitQuality c.area axes < 7/10 ∨ 13/10 < fitQuality c.area axes
          then none
          else if aspectRatio axes < 3/10 ∨ 9/10 < aspectRatio axes then none
          else some (ovalSymbol c (fitQuality c.area axes))
        else none

/-- Body of `detect_ovals` after the primitives ran. -/
def ovalsCore (cs : List OvalContour) : List DetectedSymbol :=
  cs.filterMap ovalProcess

/-- `detect_ovals`: grayscale conversion followed by the contour scan. -/
def detect_ovals (img : Image) (cs : List OvalContour) :
    Except String (List DetectedSymbol) :=
  match cvtColorGray img with
  | Except.error e => Except.error e
  | Except.ok _ => Except.ok (ovalsCore cs)

/-! ## Symbol Aggregator -/

/-- The observable output of the `/detect-symbols` endpoint: the serialised
symbol list with its total count, plus the per-type counts written to the
service log for observability. -/
structure SymbolsResponse where
  symbols : List DetectedSymbol
  count : Nat
  rectangleCount : Nat
  circleCount : Nat
  ovalCount : Nat
deriving DecidableEq, Repr

/-- `detect_symbols`: runs the three detectors on the same buffer in the
fixed order double rectangles, circles with grids, ovals, extends one list
with their results in that order, and reports the total and per-type
counts.  A detector failure (degenerate buffer) propagates as the error
response with no partial results. -/
def detect_symbols (img : Image) (cs : List ContourData)
    (hier : Option (List Int)) (circles : Option (List HoughCircle))
    (linesOf : HoughCircle → Option (List LineSeg)) (atan2deg : Int → Int → ℚ)
    (ovs : List OvalContour) : Except String SymbolsResponse :=
  match detect_double_rectangles img cs hier with
  | Except.error e => Except.error e
  | Except.ok double_rects =>
      match detect_circles_with_grids img circles linesOf atan2deg with
      | Except.error e => Except.error e
      | Except.ok circle_grids =>
          match detect_ovals img ovs with
          | Except.error e => Except.error e
          | Except.ok ovals =>
              Except.ok
                { symbols := double_rects ++ circle_grids ++ ovals
                  count := (double_rects ++ circle_grids ++ ovals).length
                  rectangleCount := double_rects.length
                  circleCount := circle_grids.length
                  ovalCount := ovals.length }

/-! ## Helper lemmas -/

theorem intsMin_le_head (a : Int) (as : List Int) : intsMin a as ≤ a := by
  induction as generalizing a with
  | nil => exact le_refl a
  | cons x xs ih =>
      have h := ih (min a x)
      exact le_trans h (min_le_left a x)

theorem intsMin_le_mem (a b : Int) (as : List Int) (hb : b ∈ as) :
    intsMin a as ≤ b := by
  induction as generalizing a with
  | nil => cases hb
  | cons x xs ih =>
      rcases List.mem_cons.mp hb with h | h
      · subst h
        exact le_trans (intsMin_le_head (min a b) xs) (min_le_right a b)
      · exact ih (min a x) h

theorem le_intsMin (a c : Int) (as : List Int) (h1 : c ≤ a)
    (h2 : ∀ b ∈ as, c ≤ b) : c ≤ intsMin a as := by
  induction as generalizing a with
  | nil => exact h1
  | cons x xs ih =>
      exact ih (min a x) (le_min h1 (h2 x (List.mem_cons_self x xs)))
        fun b hb => h2 b (List.mem_cons_of_mem x hb)

theorem head_le_intsMax (a : Int) (as : List Int) : a ≤ intsMax a as := by
  induction as generalizing a with
  | nil => exact le_refl a
  | cons x xs ih =>
      exact le_trans (le_max_left a x) (ih (max a x))

theorem mem_le_intsMax (a b : Int) (as : List Int) (hb : b ∈ as) :
    b ≤ intsMax a as := by
  induction as generalizing a with
  | nil => cases hb
  | cons x xs ih =>
      rcases List.mem_cons.mp hb with h | h
      · subst h
        exact le_trans (le_max_right a b) (head_le_intsMax (max a b) xs)
      · exact ih (max a x) h

theorem intsMax_le (a c : Int) (as : List Int) (h1 : a ≤ c)
    (h2 : ∀ b ∈ as, b ≤ c) : intsMax a as ≤ c := by
  induction as generalizing a with
  | nil => exact h1
  | cons x xs ih =>
      exact ih (max a x) (max_le h1 (h2 x (List.mem_cons_self x xs)))
        fun b hb => h2 b (List.mem_cons_of_mem x hb)

theorem boundingRect_pos (pts : List (Int × Int)) (hne : pts ≠ []) :
    0 < (boundingRect pts).w ∧ 0 < (boundingRect pts).h := by
  match pts with
  | [] => exact absurd rfl hne
  | p :: ps =>
      constructor
      · have h := intsMin_le_head p.1 (ps.map Prod.fst)
        have h2 := head_le_intsMax p.1 (ps.map Prod.fst)
        simp only [boundingRect]
        omega
      · have h := intsMin_le_head p.2 (ps.map Prod.snd)
        have h2 := head_le_intsMax p.2 (ps.map Prod.snd)
        simp only [boundingRect]
        omega

theorem boundingRect_inBounds (pts : List (Int × Int)) (W H : Int)
    (hne : pts ≠ [])
    (hpts : ∀ p ∈ pts, 0 ≤ p.1 ∧ p.1 < W ∧ 0 ≤ p.2 ∧ p.2 < H) :
    0 ≤ (boundingRect pts).x ∧ 0 ≤ (boundingRect pts).y ∧
      (boundingRect pts).x + (boundingRect pts).w ≤ W ∧
      (boundingRect pts).y + (boundingRect pts).h ≤ H := by
  match pts with
  | [] => exact absurd rfl hne
  | p :: ps =>
      have hp := hpts p (List.mem_cons_self p ps)
      have hxlo : 0 ≤ intsMin p.1 (ps.map Prod.fst) := by
        refine le_intsMin _ _ _ hp.1 ?_
        intro b hb
        rcases List.mem_map.mp hb with ⟨q, hq, hqb⟩
        exact hqb ▸ (hpts q (List.mem_cons_of_mem p hq)).1
      have hylo : 0 ≤ intsMin p.2 (ps.map Prod.snd) := by
        refine le_intsMin _ _ _ hp.2.2.1 ?_
        intro b hb
        rcases List.mem_map.mp hb with ⟨q, hq, hqb⟩
        exact hqb ▸ (hpts q (List.mem_cons_of_mem p hq)).2.2.1
      have hxhi : intsMax p.1 (ps.map Prod.fst) < W := by
        refine lt_of_le_of_lt (intsMax_le _ (W - 1) _ ?_ ?_) (by omega)
        · omega
        · intro b hb
          rcases List.mem_map.mp hb with ⟨q, hq, hqb⟩
          have := (hpts q (List.mem_cons_of_mem p hq)).2.1
          omega
      have hyhi : intsMax p.2 (ps.map Prod.snd) < H := by
        refine lt_of_le_of_lt (intsMax_le _ (H - 1) _ ?_ ?_) (by omega)
        · omega
        · intro b hb
          rcases List.mem_map.mp hb with ⟨q, hq, hqb⟩
          have := (hpts q (List.mem_cons_of_mem p hq)).2.2.2
          omega
      simp only [boundingRect]
      refine ⟨hxlo, hylo, ?_, ?_⟩ <;> omega

theorem rectProcess_eq_some (cs : List ContourData) (c : ContourData)
    (ci : Int) (s : DetectedSymbol) :
    rectProcess cs c ci = some s ↔
      ¬ c.area < 500 ∧ c.approx.length = 4 ∧ hasNested cs c ci = true ∧
        s = rectSymbol c := by
  unfold rectProcess
  split
  next h => exact iff_of_false (by simp) fun hc => hc.1 h
  next h =>
    split
    next h4 =>
      split
      next hn =>
        constructor
        · intro hs
          exact ⟨h, h4, hn, (Option.some_inj.mp hs).symm⟩
        · intro hc
          rw [hc.2.2.2]
      next hn => exact iff_of_false (by simp) fun hc => hn hc.2.2.1
    next h4 => exact iff_of_false (by simp) fun hc => h4 hc.2.1

theorem circleProcess_eq_some (img : Image)
    (linesOf : HoughCircle → Option (List LineSeg))
    (atan2deg : Int → Int → ℚ) (c : HoughCircle) (s : DetectedSymbol) :
    circleProcess img linesOf atan2deg c = some s ↔
      ¬ c.r < 15 ∧ ¬ (roiX2 img c ≤ roiX1 c ∨ roiY2 img c ≤ roiY1 c) ∧
        ¬ (roiY2 img c - roiY1 c) * (roiX2 img c - roiX1 c) = 0 ∧
        ∃ lines, linesOf c = some lines ∧ ¬ lines.length < 4 ∧
          2 ≤ horizCount atan2deg lines ∧ 2 ≤ vertCount atan2deg lines ∧
          s = circleSymbol c (horizCount atan2deg lines)
            (vertCount atan2deg lines) := by
  unfold circleProcess
  split
  next h => exact iff_of_false (by simp) fun hc => hc.1 h
  next h =>
    split
    next h2 => exact iff_of_false (by simp) fun hc => hc.2.1 h2
    next h2 =>
      split
      next h3 => exact iff_of_false (by simp) fun hc => hc.2.2.1 h3
      next h3 =>
        split
        next hl =>
          refine iff_of_false (by simp) fun hc => ?_
          rcases hc.2.2.2 with ⟨lines, hlines, _⟩
          rw [hl] at hlines
          cases hlines
        next lines hl =>
          split
          next hlen =>
            refine iff_of_false (by simp) fun hc => ?_
            rcases hc.2.2.2 with ⟨lines2, hlines2, hlen2, _⟩
            rw [hl] at hlines2
            cases Option.some_inj.mp hlines2
            exact hlen2 hlen
          next hlen =>
            split
            next hacc =>
              constructor
              · intro hs
                exact ⟨h, h2, h3, lines, hl, hlen, hacc.1, hacc.2,
                  (Option.some_inj.mp hs).symm⟩
              · intro hc
                rcases hc.2.2.2 with ⟨lines2, hlines2, _, _, _, hs⟩
                rw [hl] at hlines2
                cases Option.some_inj.mp hlines2
                rw [hs]
            next hacc =>
              refine iff_of_false (by simp) fun hc => ?_
              rcases hc.2.2.2 with ⟨lines2, hlines2, _, hh, hv, _⟩
              rw [hl] at hlines2
              cases Option.some_inj.mp hlines2
              exact hacc ⟨hh, hv⟩

theorem ovalProcess_eq_some (c : OvalContour) (s : DetectedSymbol) :
    ovalProcess c = some s ↔
      ¬ c.area < 300 ∧ ¬ c.pts.length < 5 ∧
        ∃ axes, c.fit = some axes ∧ 0 < ellipseArea axes ∧
          ¬ (fitQuality c.area axes < 7/10 ∨ 13/10 < fitQuality c.area axes) ∧
          ¬ (aspectRatio axes < 3/10 ∨ 9/10 < aspectRatio axes) ∧
          s = ovalSymbol c (fitQuality c.area axes) := by
  unfold ovalProcess
  split
  next h => exact iff_of_false (by simp) fun hc => hc.1 h
  next h =>
    split
    next h5 => exact iff_of_false (by simp) fun hc => hc.2.1 h5
    next h5 =>
      split
      next hf =>
        refine iff_of_false (by simp) fun hc => ?_
        rcases hc.2.2 with ⟨axes, haxes, _⟩
        rw [hf] at haxes
        cases haxes
      next axes hf =>
        split
        next hea =>
          split
          next hfq =>
            refine iff_of_false (by simp) fun hc => ?_
            rcases hc.2.2 with ⟨axes2, haxes2, _, hfq2, _⟩
            rw [hf] at haxes2
            cases Option.some_inj.mp haxes2
            exact hfq2 hfq
          next hfq =>
            split
            next har =>
              refine iff_of_false (by simp) fun hc => ?_
              rcases hc.2.2 with ⟨axes2, haxes2, _, _, har2, _⟩
              rw [hf] at haxes2
              cases Option.some_inj.mp haxes2
              exact har2 har
            next har =>
              constructor
              · intro hs
                exact ⟨h, h5, axes, hf, hea, hfq, har,
                  (Option.some_inj.mp hs).symm⟩
              · intro hc
                rcases hc.2.2 with ⟨axes2, haxes2, _, _, _, hs⟩
                rw [hf] at haxes2
                cases Option.some_inj.mp haxes2
                rw [hs]
        next hea =>
          refine iff_of_false (by simp) fun hc => ?_
          rcases hc.2.2 with ⟨axes2, haxes2, hea2, _⟩
          rw [hf] at haxes2
          cases Option.some_inj.mp haxes2
          exact hea hea2

theorem gridQuality_eq_one (h v : Nat) (hh : 2 ≤ h) (hv : 2 ≤ v) :
    gridQuality h v = 1 := by
  unfold gridQuality
  have h4 : (4 : ℚ) ≤ (h : ℚ) * (v : ℚ) := by
    have hn : 4 ≤ h * v := Nat.mul_le_mul hh hv
    calc (4 : ℚ) = ((4 : Nat) : ℚ) := by norm_num
    _ ≤ ((h * v : Nat) : ℚ) := by exact_mod_cast hn
    _ = (h : ℚ) * (v : ℚ) := by push_cast; ring
  rw [min_eq_left]
  rw [le_div_iff₀ (by norm_num)]
  linarith

theorem circleSymbol_confidence (c : HoughCircle) (h v : Nat) (hh : 2 ≤ h)
    (hv : 2 ≤ v) : (circleSymbol c h v).confidence = 9/10 := by
  simp only [circleSymbol, gridQuality_eq_one h v hh hv]
  norm_num

theorem ovalSymbol_confidence_bounds (c : OvalContour) (fq : ℚ)
    (h1 : 7/10 ≤ fq) (h2 : fq ≤ 13/10) :
    33/40 ≤ (ovalSymbol c fq).confidence ∧
      (ovalSymbol c fq).confidence ≤ 19/20 := by
  simp only [ovalSymbol]
  constructor
  · refine le_min (by norm_num) ?_
    linarith
  · exact min_le_left _ _

theorem mem_doubleRectanglesCore (cs : List ContourData)
    (hier : Option (List Int)) (s : DetectedSymbol)
    (hs : s ∈ doubleRectanglesCore cs hier) :
    ∃ fc, hier = some fc ∧
      ∃ pc, pc ∈ cs.zip fc ∧ rectProcess cs pc.1 pc.2 = some s := by
  cases hier with
  | none => simp [doubleRectanglesCore] at hs
  | some fc =>
      rcases List.mem_filterMap.mp hs with ⟨pc, hmem, hp⟩
      exact ⟨fc, rfl, pc, hmem, hp⟩

theorem mem_circlesWithGridsCore (img : Image)
    (circles : Option (List HoughCircle))
    (linesOf : HoughCircle → Option (List LineSeg))
    (atan2deg : Int → Int → ℚ) (s : DetectedSymbol)
    (hs : s ∈ circlesWithGridsCore img circles linesOf atan2deg) :
    ∃ cl, circles = some cl ∧
      ∃ c, c ∈ cl ∧ circleProcess img linesOf atan2deg c = some s := by
  cases circles with
  | none => simp [circlesWithGridsCore] at hs
  | some cl =>
      rcases List.mem_filterMap.mp hs with ⟨c, hmem, hp⟩
      exact ⟨cl, rfl, c, hmem, hp⟩

theorem mem_ovalsCore (cs : List OvalContour) (s : DetectedSymbol)
    (hs : s ∈ ovalsCore cs) : ∃ c, c ∈ cs ∧ ovalProcess c = some s :=
  List.mem_filterMap.mp hs

theorem detect_double_rectangles_ok (img : Image) (cs : List ContourData)
    (hier : Option (List Int)) (syms : List DetectedSymbol)
    (h : detect_double_rectangles img cs hier = Except.ok syms) :
    syms = doubleRectanglesCore cs hier := by
  unfold detect_double_rectangles at h
  revert h
  split
  · intro h; cases h
  · intro h; exact (Except.ok.inj h).symm

theorem detect_circles_with_grids_ok (img : Image)
    (circles : Option (List HoughCircle))
    (linesOf : HoughCircle → Option (List LineSeg))
    (atan2deg : Int → Int → ℚ) (syms : List DetectedSymbol)
    (h : detect_circles_with_grids img circles linesOf atan2deg =
      Except.ok syms) :
    syms = circlesWithGridsCore img circles linesOf atan2deg := by
  unfold detect_circles_with_grids at h
  revert h
  split
  · intro h; cases h
  · intro h; exact (Except.ok.inj h).symm

theorem detect_ovals_ok (img : Image) (cs : List OvalContour)
    (syms : List DetectedSymbol)
    (h : detect_ovals img cs = Except.ok syms) : syms = ovalsCore cs := by
  unfold detect_ovals at h
  revert h
  split
  · intro h; cases h
  · intro h; exact (Except.ok.inj h).symm

theorem rectCore_spec (cs : List ContourData) (hier : Option (List Int))
    (s : DetectedSymbol) (hs : s ∈ doubleRectanglesCore cs hier) :
    s.confidence = 17/20 ∧ s.type = SymbolType.DoubleRectangle := by
  rcases mem_doubleRectanglesCore _ _ _ hs with ⟨fc, _, pc, _, hp⟩
  rcases (rectProcess_eq_some _ _ _ _).mp hp with ⟨_, _, _, hsym⟩
  rw [hsym]
  exact ⟨rfl, rfl⟩

theorem circleCore_spec (img : Image) (circles : Option (List HoughCircle))
    (linesOf : HoughCircle → Option (List LineSeg))
    (atan2deg : Int → Int → ℚ) (s : DetectedSymbol)
    (hs : s ∈ circlesWithGridsCore img circles linesOf atan2deg) :
    s.confidence = 9/10 ∧ s.type = SymbolType.CircleWithGrid := by
  rcases mem_circlesWithGridsCore _ _ _ _ _ hs with ⟨cl, _, c, _, hp⟩
  rcases (circleProcess_eq_some _ _ _ _ _).mp hp with
    ⟨_, _, _, lines, _, _, hh, hv, hsym⟩
  rw [hsym]
  exact ⟨circleSymbol_confidence _ _ _ hh hv, rfl⟩

theorem ovalCore_spec (cs : List OvalContour) (s : DetectedSymbol)
    (hs : s ∈ ovalsCore cs) :
    (33/40 ≤ s.confidence ∧ s.confidence ≤ 19/20) ∧
      s.type = SymbolType.Oval := by
  rcases mem_ovalsCore _ _ hs with ⟨c, _, hp⟩
  rcases (ovalProcess_eq_some _ _).mp hp with ⟨_, _, axes, _, _, hfq, _, hsym⟩
  push_neg at hfq
  rw [hsym]
  exact ⟨ovalSymbol_confidence_bounds _ _ hfq.1 hfq.2, rfl⟩

/-! ## Concrete demonstration inputs (used by the witnesses) -/

/-- A 100 by 100 input buffer. -/
def img100 : Image := { width := 100, height := 100 }

/-- Outer quadrilateral contour of the nested-rectangle demonstration. -/
def rectParentC : ContourData :=
  { area := 4900, approx := [(10, 10), (80, 10), (80, 80), (10, 80)] }

/-- Inner quadrilateral contour of the nested-rectangle demonstration. -/
def rectChildC : ContourData :=
  { area := 1600, approx := [(20, 20), (60, 20), (60, 60), (20, 60)] }

/-- Contour forest of the nested-rectangle demonstration. -/
def rectDemoContours : List ContourData := [rectParentC, rectChildC]

/-- Hierarchy first-child row of the demonstration: the outer contour has
the inner one as first child, the inner one has none. -/
def rectDemoHier : Option (List Int) := some [1, -1]

theorem rectDemo_hasNested : hasNested rectDemoContours rectParentC 1 = true := by
  have hget : rectDemoContours.get? (1 : Int).toNat = some rectChildC := rfl
  unfold hasNested
  rw [if_pos (by norm_num), hget]
  show childQualifies rectParentC.area (boundingRect rectParentC.approx)
    rectChildC = true
  norm_num [childQualifies, strictlyInside, boundingRect, intsMin, intsMax,
    rectParentC, rectChildC, min_def, max_def, Bool.and_eq_true,
    decide_eq_true_eq]

theorem rectProcess_parent_eval :
    rectProcess rectDemoContours rectParentC 1 =
      some (rectSymbol rectParentC) := by
  rw [rectProcess_eq_some]
  exact ⟨by norm_num [rectParentC], by norm_num [rectParentC],
    rectDemo_hasNested, rfl⟩

theorem rectProcess_child_eval :
    rectProcess rectDemoContours rectChildC (-1) = none := by
  unfold rectProcess hasNested
  norm_num [rectChildC]

theorem rectDemo_zip :
    rectDemoContours.zip [1, -1] = [(rectParentC, 1), (rectChildC, -1)] := rfl

theorem rectDemo_eval :
    doubleRectanglesCore rectDemoContours rectDemoHier =
      [rectSymbol rectParentC] := by
  simp only [doubleRectanglesCore, rectDemoHier, rectDemo_zip,
    List.filterMap_cons, List.filterMap_nil, rectProcess_parent_eval,
    rectProcess_child_eval]

/-- Claim C1: for every symbol emitted by any of the three detectors, the
confidence lies in the interval from 0 to 0.95 (= 19/20); every symbol of
type DoubleRectangle has confidence exactly 0.85 (= 17/20); no emitted
confidence is exactly 1 and none is negative. -/
theorem claim_C1_confidence_range (img : Image) (cs : List ContourData)
    (hier : Option (List Int)) (circles : Option (List HoughCircle))
    (linesOf : HoughCircle → Option (List LineSeg))
    (atan2deg : Int → Int → ℚ) (ovs : List OvalContour)
    (rs gs os : List DetectedSymbol)
    (hr : detect_double_rectangles img cs hier = Except.ok rs)
    (hg : detect_circles_with_grids img circles linesOf atan2deg =
      Except.ok gs)
    (ho : detect_ovals img ovs = Except.ok os)
    (s : DetectedSymbol) (hs : s ∈ rs ++ gs ++ os) :
    0 ≤ s.confidence ∧ s.confidence ≤ 19/20 ∧ s.confidence ≠ 1 ∧
      ¬ s.confidence < 0 ∧
      (s.type = SymbolType.DoubleRectangle → s.confidence = 17/20) := by
  obtain rfl := detect_double_rectangles_ok _ _ _ _ hr
  obtain rfl := detect_circles_with_grids_ok _ _ _ _ _ hg
  obtain rfl := detect_ovals_ok _ _ _ ho
  rcases List.mem_append.mp hs with hs12 | hs3
  · rcases List.mem_append.mp hs12 with hs1 | hs2
    · rcases rectCore_spec _ _ _ hs1 with ⟨hc, ht⟩
      rw [hc]
      norm_num
    · rcases circleCore_spec _ _ _ _ _ hs2 with ⟨hc, ht⟩
      rw [hc, ht]
      refine ⟨by norm_num, by norm_num, by norm_num, by norm_num, ?_⟩
      intro h
      exact SymbolType.noConfusion h
  · rcases ovalCore_spec _ _ hs3 with ⟨⟨h1, h2⟩, ht⟩
    refine ⟨by linarith, h2, ?_, by linarith, ?_⟩
    · intro h
      rw [h] at h2
      norm_num at h2
    · intro h
      rw [ht] at h
      exact SymbolType.noConfusion h

/-- Witness for claim C1: the nested-rectangle demonstration input makes the
double-rectangle detector emit one symbol, and the theorem applies to it. -/
theorem claim_C1_confidence_range_witness :
    0 ≤ (rectSymbol rectParentC).confidence ∧
      (rectSymbol rectParentC).confidence ≤ 19/20 ∧
      (rectSymbol rectParentC).confidence ≠ 1 ∧
      ¬ (rectSymbol rectParentC).confidence < 0 ∧
      ((rectSymbol rectParentC).type = SymbolType.DoubleRectangle →
        (rectSymbol rectParentC).confidence = 17/20) := by
  refine claim_C1_confidence_range img100 rectDemoContours rectDemoHier none
    (fun _ => none) (fun _ _ => 0) [] [rectSymbol rectParentC] [] []
    ?_ ?_ ?_ (rectSymbol rectParentC) ?_
  · simp [detect_double_rectangles, cvtColorGray, img100, rectDemo_eval]
  · simp [detect_circles_with_grids, cvtColorGray, img100,
      circlesWithGridsCore]
  · simp [detect_ovals, cvtColorGray, img100, ovalsCore]
  · simp

/-- Demonstration Hough circle: center (50, 50), radius 20, inside the
100 by 100 buffer. -/
def circleDemo : HoughCircle := { cx := 50, cy := 50, r := 20 }

/-- Horizontal demonstration segment from (0, 0) to (10, 0). -/
def lineH1 : LineSeg := { x1 := 0, y1 := 0, x2 := 10, y2 := 0 }

/-- Horizontal demonstration segment from (0, 5) to (10, 5). -/
def lineH2 : LineSeg := { x1 := 0, y1 := 5, x2 := 10, y2 := 5 }

/-- Vertical demonstration segment from (0, 0) to (0, 10). -/
def lineV1 : LineSeg := { x1 := 0, y1 := 0, x2 := 0, y2 := 10 }

/-- Vertical demonstration segment from (5, 0) to (5, 10). -/
def lineV2 : LineSeg := { x1 := 5, y1 := 0, x2 := 5, y2 := 10 }

/-- Demonstration line-transform result: two horizontal and two vertical
segments. -/
def demoLines : List LineSeg := [lineH1, lineH2, lineV1, lineV2]

/-- Demonstration line oracle: every circle gets `demoLines`. -/
def demoLinesOf : HoughCircle → Option (List LineSeg) := fun _ => some demoLines

/-- Angle oracle agreeing with `arctan2` scaled to degrees on the
axis-aligned segments used in the demonstrations: 0 for `dy = 0` (with
`dx > 0`), 90 for `dx = 0` with `dy > 0` (the remaining branch is never hit
by the demonstration inputs). -/
def axisAtan2deg : Int → Int → ℚ := fun dy dx =>
  if dy = 0 then 0 else if dx = 0 then 90 else 45

theorem classify_lineH1 :
    classifyLine axisAtan2deg lineH1 = LineClass.horizontal := by
  norm_num [classifyLine, axisAtan2deg, lineH1]

theorem classify_lineH2 :
    classifyLine axisAtan2deg lineH2 = LineClass.horizontal := by
  norm_num [classifyLine, axisAtan2deg, lineH2]

theorem classify_lineV1 :
    classifyLine axisAtan2deg lineV1 = LineClass.vertical := by
  norm_num [classifyLine, axisAtan2deg, lineV1]

theorem classify_lineV2 :
    classifyLine axisAtan2deg lineV2 = LineClass.vertical := by
  norm_num [classifyLine, axisAtan2deg, lineV2]

theorem demoLines_horizCount : horizCount axisAtan2deg demoLines = 2 := by
  simp only [horizCount, demoLines, List.filter_cons, List.filter_nil,
    classify_lineH1, classify_lineH2, classify_lineV1, classify_lineV2]
  decide

theorem demoLines_vertCount : vertCount axisAtan2deg demoLines = 2 := by
  simp only [vertCount, demoLines, List.filter_cons, List.filter_nil,
    classify_lineH1, classify_lineH2, classify_lineV1, classify_lineV2]
  decide

theorem circleDemo_padding : circlePadding circleDemo = 4 := by
  have h : pyInt ((circleDemo.r : ℚ) * (1/5)) = 4 := by
    norm_num [pyInt, circleDemo]
  unfold circlePadding
  rw [h]
  rfl

theorem circleDemo_roiX1 : roiX1 circleDemo = 26 := by
  simp only [roiX1, circleDemo_padding]
  decide

theorem circleDemo_roiY1 : roiY1 circleDemo = 26 := by
  simp only [roiY1, circleDemo_padding]
  decide

theorem circleDemo_roiX2 : roiX2 img100 circleDemo = 74 := by
  simp only [roiX2, circleDemo_padding]
  decide

theorem circleDemo_roiY2 : roiY2 img100 circleDemo = 74 := by
  simp only [roiY2, circleDemo_padding]
  decide

theorem circleDemo_process :
    circleProcess img100 demoLinesOf axisAtan2deg circleDemo =
      some (circleSymbol circleDemo 2 2) := by
  rw [circleProcess_eq_some]
  refine ⟨by norm_num [circleDemo], ?_, ?_, demoLines, rfl, ?_, ?_, ?_, ?_⟩
  · rw [circleDemo_roiX1, circleDemo_roiX2, circleDemo_roiY1,
      circleDemo_roiY2]
    norm_num
  · rw [circleDemo_roiX1, circleDemo_roiX2, circleDemo_roiY1,
      circleDemo_roiY2]
    norm_num
  · norm_num [demoLines]
  · rw [demoLines_horizCount]
  · rw [demoLines_vertCount]
  · rw [demoLines_horizCount, demoLines_vertCount]

theorem circleDemo_core :
    circlesWithGridsCore img100 (some [circleDemo]) demoLinesOf axisAtan2deg =
      [circleSymbol circleDemo 2 2] := by
  simp only [circlesWithGridsCore, List.filterMap_cons, List.filterMap_nil,
    circleDemo_process]

/-- Claim C9: every CircleWithGrid symbol emitted by the grid-circle
detector has confidence exactly 0.9 (= 9/10): acceptance forces at least
2 horizontal and 2 vertical lines, so the grid quality saturates at 1 and
the confidence formula yields min(0.95, 0.6 + 0.3) = 0.9. -/
theorem claim_C9_grid_confidence (img : Image)
    (circles : Option (List HoughCircle))
    (linesOf : HoughCircle → Option (List LineSeg))
    (atan2deg : Int → Int → ℚ) (gs : List DetectedSymbol)
    (hg : detect_circles_with_grids img circles linesOf atan2deg =
      Except.ok gs)
    (s : DetectedSymbol) (hs : s ∈ gs) : s.confidence = 9/10 := by
  obtain rfl := detect_circles_with_grids_ok _ _ _ _ _ hg
  exact (circleCore_spec _ _ _ _ _ hs).1

/-- Witness for claim C9 at the demonstration circle input. -/
theorem claim_C9_grid_confidence_witness :
    (circleSymbol circleDemo 2 2).confidence = 9/10 :=
  claim_C9_grid_confidence img100 (some [circleDemo]) demoLinesOf
    axisAtan2deg [circleSymbol circleDemo 2 2]
    (by
      have h : cvtColorGray img100 = Except.ok () := by
        norm_num [cvtColorGray, img100]
      simp only [detect_circles_with_grids, h, circleDemo_core])
    (circleSymbol circleDemo 2 2) (by simp)

/-- Demonstration oval contour: area 2000, fitted axes (80, 40), so the
fit quality is 2000 / (800 pi) which lies in the accepted band and the
aspect ratio is 1/2. -/
def ovalDemo : OvalContour :=
  { pts := [(10, 20), (90, 20), (90, 60), (10, 60), (50, 40)]
    area := 2000
    fit := some (80, 40) }

theorem ovalDemo_process :
    ovalProcess ovalDemo =
      some (ovalSymbol ovalDemo (fitQuality ovalDemo.area (80, 40))) := by
  rw [ovalProcess_eq_some]
  refine ⟨by norm_num [ovalDemo], by norm_num [ovalDemo], (80, 40), rfl,
    ?_, ?_, ?_, rfl⟩
  · norm_num [ellipseArea, majorAxis, minorAxis, npPi, max_def, min_def]
  · norm_num [fitQuality, ellipseArea, majorAxis, minorAxis, npPi, max_def,
      min_def, ovalDemo]
  · norm_num [aspectRatio, majorAxis, minorAxis, max_def, min_def]

theorem ovalDemo_core :
    ovalsCore [ovalDemo] =
      [ovalSymbol ovalDemo (fitQuality ovalDemo.area (80, 40))] := by
  simp only [ovalsCore, List.filterMap_cons, List.filterMap_nil,
    ovalDemo_process]

/-- Claim C10: every Oval symbol emitted by the oval detector has
confidence in the interval [0.825, 0.95] (= [33/40, 19/20]): emission
requires a fit quality in [0.7, 1.3], and min(0.95, 0.65 + 0.25 q) then
lies between 0.825 and 0.95. -/
theorem claim_C10_oval_confidence (img : Image) (ovs : List OvalContour)
    (os : List DetectedSymbol) (ho : detect_ovals img ovs = Except.ok os)
    (s : DetectedSymbol) (hs : s ∈ os) :
    33/40 ≤ s.confidence ∧ s.confidence ≤ 19/20 := by
  obtain rfl := detect_ovals_ok _ _ _ ho
  exact (ovalCore_spec _ _ hs).1

/-- Witness for claim C10 at the demonstration oval input. -/
theorem claim_C10_oval_confidence_witness :
    33/40 ≤ (ovalSymbol ovalDemo (fitQuality ovalDemo.area (80, 40))).confidence ∧
      (ovalSymbol ovalDemo (fitQuality ovalDemo.area (80, 40))).confidence ≤
        19/20 :=
  claim_C10_oval_confidence img100 [ovalDemo]
    [ovalSymbol ovalDemo (fitQuality ovalDemo.area (80, 40))]
    (by simp [detect_ovals, cvtColorGray, img100, ovalDemo_core])
    (ovalSymbol ovalDemo (fitQuality ovalDemo.area (80, 40))) (by simp)

theorem ovalProcess_none_of_fit_none (c : OvalContour) (h : c.fit = none) :
    ovalProcess c = none := by
  unfold ovalProcess
  split
  · rfl
  · split
    · rfl
    · rw [h]

/-- Claim C7: a numerical failure of the ellipse fit on one contour (the
`cv2.error` caught by the detector, modelled as a `none` fit) skips exactly
that contour: the detector still returns the symbols of all other contours,
and the call succeeds (the failure is never propagated to the caller). -/
theorem claim_C7_oval_fit_failure (img : Image) (pre post : List OvalContour)
    (c : OvalContour) (hfit : c.fit = none) (hw : img.width ≠ 0)
    (hh : img.height ≠ 0) :
    detect_ovals img (pre ++ c :: post) =
      Except.ok (ovalsCore pre ++ ovalsCore post) ∧
    detect_ovals img (pre ++ c :: post) = detect_ovals img (pre ++ post) := by
  have hc := ovalProcess_none_of_fit_none c hfit
  have hcore : ovalsCore (pre ++ c :: post) = ovalsCore pre ++ ovalsCore post := by
    simp [ovalsCore, List.filterMap_append, List.filterMap_cons, hc]
  have hcore2 : ovalsCore (pre ++ post) = ovalsCore pre ++ ovalsCore post := by
    simp [ovalsCore, List.filterMap_append]
  have hcvt : cvtColorGray img = Except.ok () := by
    simp [cvtColorGray, hw, hh]
  constructor
  · simp only [detect_ovals, hcvt, hcore]
  · simp only [detect_ovals, hcvt, hcore, hcore2]

/-- A second demonstration contour whose ellipse fit fails. -/
def ovalNoFit : OvalContour :=
  { pts := [(0, 0), (10, 0), (10, 10), (0, 10), (5, 5)]
    area := 400
    fit := none }

/-- Witness for claim C7: the fit-failing contour between the demonstration
oval and the end of the list is skipped and the demonstration oval is still
returned. -/
theorem claim_C7_oval_fit_failure_witness :
    detect_ovals img100 ([ovalDemo] ++ ovalNoFit :: []) =
      Except.ok (ovalsCore [ovalDemo] ++ ovalsCore []) ∧
    detect_ovals img100 ([ovalDemo] ++ ovalNoFit :: []) =
      detect_ovals img100 ([ovalDemo] ++ []) :=
  claim_C7_oval_fit_failure img100 [ovalDemo] [] ovalNoFit rfl
    (by norm_num [img100]) (by norm_num [img100])

/-- Claim C6: the aggregator runs the three detectors on the same buffer
and returns exactly the concatenation of their result lists in the fixed
order double rectangles, circles with grids, ovals, with no deduplication
or filtering, together with the total count and the per-type counts. -/
theorem claim_C6_aggregator (img : Image) (cs : List ContourData)
    (hier : Option (List Int)) (circles : Option (List HoughCircle))
    (linesOf : HoughCircle → Option (List LineSeg))
    (atan2deg : Int → Int → ℚ) (ovs : List OvalContour)
    (hw : img.width ≠ 0) (hh : img.height ≠ 0) :
    detect_symbols img cs hier circles linesOf atan2deg ovs =
      Except.ok
        { symbols := doubleRectanglesCore cs hier ++
            circlesWithGridsCore img circles linesOf atan2deg ++ ovalsCore ovs
          count := (doubleRectanglesCore cs hier ++
            circlesWithGridsCore img circles linesOf atan2deg ++
            ovalsCore ovs).length
          rectangleCount := (doubleRectanglesCore cs hier).length
          circleCount :=
            (circlesWithGridsCore img circles linesOf atan2deg).length
          ovalCount := (ovalsCore ovs).length } := by
  have hcvt : cvtColorGray img = Except.ok () := by
    simp [cvtColorGray, hw, hh]
  simp only [detect_symbols, detect_double_rectangles,
    detect_circles_with_grids, detect_ovals, hcvt]

/-- Witness for claim C6 at the demonstration inputs (one symbol from each
detector). -/
theorem claim_C6_aggregator_witness :
    detect_symbols img100 rectDemoContours rectDemoHier (some [circleDemo])
      demoLinesOf axisAtan2deg [ovalDemo] =
      Except.ok
        { symbols := doubleRectanglesCore rectDemoContours rectDemoHier ++
            circlesWithGridsCore img100 (some [circleDemo]) demoLinesOf
              axisAtan2deg ++ ovalsCore [ovalDemo]
          count := (doubleRectanglesCore rectDemoContours rectDemoHier ++
            circlesWithGridsCore img100 (some [circleDemo]) demoLinesOf
              axisAtan2deg ++ ovalsCore [ovalDemo]).length
          rectangleCount :=
            (doubleRectanglesCore rectDemoContours rectDemoHier).length
          circleCount := (circlesWithGridsCore img100 (some [circleDemo])
            demoLinesOf axisAtan2deg).length
          ovalCount := (ovalsCore [ovalDemo]).length } :=
  claim_C6_aggregator img100 rectDemoContours rectDemoHier (some [circleDemo])
    demoLinesOf axisAtan2deg [ovalDemo] (by norm_num [img100])
    (by norm_num [img100])

/-- Claim C8: on a buffer with a degenerate dimension (zero width or zero
height) the very first primitive step fails, `detect_symbols` returns the
error immediately, and no partial results are produced (the result is never
a success response). -/
theorem claim_C8_degenerate_buffer (img : Image) (cs : List ContourData)
    (hier : Option (List Int)) (circles : Option (List HoughCircle))
    (linesOf : HoughCircle → Option (List LineSeg))
    (atan2deg : Int → Int → ℚ) (ovs : List OvalContour)
    (hdeg : img.width = 0 ∨ img.height = 0) :
    detect_symbols img cs hier circles linesOf atan2deg ovs =
      Except.error "empty input image" ∧
    ∀ resp, detect_symbols img cs hier circles linesOf atan2deg ovs ≠
      Except.ok resp := by
  have hcvt : cvtColorGray img = Except.error "empty input image" := by
    simp [cvtColorGray, hdeg]
  have hmain : detect_symbols img cs hier circles linesOf atan2deg ovs =
      Except.error "empty input image" := by
    simp only [detect_symbols, detect_double_rectangles, hcvt]
  refine ⟨hmain, fun resp h => ?_⟩
  rw [hmain] at h
  cases h

/-- Witness for claim C8 at a zero-width buffer. -/
theorem claim_C8_degenerate_buffer_witness :
    detect_symbols { width := 0, height := 100 } rectDemoContours rectDemoHier
      (some [circleDemo]) demoLinesOf axisAtan2deg [ovalDemo] =
      Except.error "empty input image" ∧
    ∀ resp, detect_symbols { width := 0, height := 100 } rectDemoContours
      rectDemoHier (some [circleDemo]) demoLinesOf axisAtan2deg [ovalDemo] ≠
      Except.ok resp :=
  claim_C8_degenerate_buffer { width := 0, height := 100 } rectDemoContours
    rectDemoHier (some [circleDemo]) demoLinesOf axisAtan2deg [ovalDemo]
    (Or.inl rfl)

/-- Claim C4: for a Hough circle that reaches the line-transform stage
(radius at least 15 and a nondegenerate region of interest), the detector
accepts the circle and emits a symbol for it iff the probabilistic line
transform returns at least 4 segments in total and the angle classification
leaves at least 2 horizontal and at least 2 vertical lines; otherwise that
circle produces no symbol. -/
theorem claim_C4_grid_acceptance (img : Image)
    (linesOf : HoughCircle → Option (List LineSeg))
    (atan2deg : Int → Int → ℚ) (c : HoughCircle) (hr : 15 ≤ c.r)
    (hroi : roiX1 c < roiX2 img c ∧ roiY1 c < roiY2 img c) :
    (∃ s, circleProcess img linesOf atan2deg c = some s) ↔
      ∃ lines, linesOf c = some lines ∧ 4 ≤ lines.length ∧
        2 ≤ horizCount atan2deg lines ∧ 2 ≤ vertCount atan2deg lines := by
  constructor
  · intro hex
    rcases hex with ⟨s, hs⟩
    rcases (circleProcess_eq_some _ _ _ _ _).mp hs with
      ⟨_, _, _, lines, hl, hlen, hh, hv, _⟩
    exact ⟨lines, hl, Nat.le_of_not_lt hlen, hh, hv⟩
  · intro hex
    rcases hex with ⟨lines, hl, hlen, hh, hv⟩
    refine ⟨circleSymbol c (horizCount atan2deg lines)
      (vertCount atan2deg lines), (circleProcess_eq_some _ _ _ _ _).mpr
      ⟨?_, ?_, ?_, lines, hl, ?_, hh, hv, rfl⟩⟩
    · omega
    · omega
    · have h1 : 0 < roiX2 img c - roiX1 c := by omega
      have h2 : 0 < roiY2 img c - roiY1 c := by omega
      exact Nat.ne_of_gt (Nat.mul_pos h2 h1)
    · omega

/-- Witness for claim C4 at the demonstration circle input. -/
theorem claim_C4_grid_acceptance_witness :
    (∃ s, circleProcess img100 demoLinesOf axisAtan2deg circleDemo =
      some s) ↔
      ∃ lines, demoLinesOf circleDemo = some lines ∧ 4 ≤ lines.length ∧
        2 ≤ horizCount axisAtan2deg lines ∧
        2 ≤ vertCount axisAtan2deg lines :=
  claim_C4_grid_acceptance img100 demoLinesOf axisAtan2deg circleDemo
    (by norm_num [circleDemo])
    (by
      rw [circleDemo_roiX1, circleDemo_roiX2, circleDemo_roiY1,
        circleDemo_roiY2]
      norm_num)

/-- Demonstration oval contour whose fitted ellipse has axes (100, 30), so
its aspect ratio is exactly 0.3, the left endpoint of the band; its area
2356 makes the fit quality 2356 / (750 pi), inside [0.7, 1.3]. -/
def ovalRatio03 : OvalContour :=
  { pts := [(0, 0), (100, 0), (100, 30), (0, 30), (50, 15)]
    area := 2356
    fit := some (100, 30) }

theorem ovalRatio03_process :
    ovalProcess ovalRatio03 =
      some (ovalSymbol ovalRatio03 (fitQuality ovalRatio03.area (100, 30))) := by
  rw [ovalProcess_eq_some]
  refine ⟨by norm_num [ovalRatio03], by norm_num [ovalRatio03], (100, 30),
    rfl, ?_, ?_, ?_, rfl⟩
  · norm_num [ellipseArea, majorAxis, minorAxis, npPi, max_def, min_def]
  · norm_num [fitQuality, ellipseArea, majorAxis, minorAxis, npPi, max_def,
      min_def, ovalRatio03]
  · norm_num [aspectRatio, majorAxis, minorAxis, max_def, min_def]

/-- Counterexample to claim C5: a contour whose fitted ellipse has aspect
ratio exactly 0.3 — not strictly inside the open interval (0.3, 0.9) —
still yields an Oval symbol: the filter only rejects ratios strictly below
0.3 or strictly above 0.9, so the band kept by the code is the closed
interval. -/
theorem claim_C5_counterexample :
    aspectRatio (100, 30) = 3/10 ∧ ¬ 3/10 < aspectRatio (100, 30) ∧
      (ovalProcess ovalRatio03).isSome = true := by
  have har : aspectRatio (100, 30) = 3/10 := by
    norm_num [aspectRatio, majorAxis, minorAxis, max_def, min_def]
  refine ⟨har, by rw [har]; norm_num, ?_⟩
  rw [ovalRatio03_process]
  rfl

/-- Claim C5 amended: for a contour reaching the aspect-ratio step,
aspect_ratio is minor divided by major (0 when the major axis is not
positive), and the detector emits a symbol for the contour iff the aspect
ratio lies in the CLOSED interval [0.3, 0.9]; a ratio strictly below 0.3 or
strictly above 0.9 is rejected (the endpoints are kept, unlike the open
interval the claim states). -/
theorem claim_C5_aspect_ratio_amended (c : OvalContour) (axes : ℚ × ℚ)
    (hfit : c.fit = some axes) (h300 : ¬ c.area < 300)
    (h5 : ¬ c.pts.length < 5) (hea : 0 < ellipseArea axes)
    (hfq : ¬ (fitQuality c.area axes < 7/10 ∨
      13/10 < fitQuality c.area axes)) :
    ((∃ s, ovalProcess c = some s) ↔
      3/10 ≤ aspectRatio axes ∧ aspectRatio axes ≤ 9/10) ∧
    aspectRatio axes =
      (if 0 < majorAxis axes then minorAxis axes / majorAxis axes else 0) := by
  refine ⟨⟨?_, ?_⟩, rfl⟩
  · intro hex
    rcases hex with ⟨s, hs⟩
    rcases (ovalProcess_eq_some _ _).mp hs with
      ⟨_, _, axes2, hfit2, _, _, har, _⟩
    rw [hfit] at hfit2
    cases Option.some_inj.mp hfit2
    push_neg at har
    exact har
  · intro har
    exact ⟨ovalSymbol c (fitQuality c.area axes),
      (ovalProcess_eq_some _ _).mpr ⟨h300, h5, axes, hfit, hea, hfq,
        by push_neg; exact har, rfl⟩⟩

/-- Witness for the amended claim C5 at the ratio-0.3 demonstration
contour. -/
theorem claim_C5_aspect_ratio_amended_witness :
    ((∃ s, ovalProcess ovalRatio03 = some s) ↔
      3/10 ≤ aspectRatio (100, 30) ∧ aspectRatio (100, 30) ≤ 9/10) ∧
    aspectRatio (100, 30) =
      (if 0 < majorAxis (100, 30) then
        minorAxis (100, 30) / majorAxis (100, 30) else 0) :=
  claim_C5_aspect_ratio_amended ovalRatio03 (100, 30) rfl
    (by norm_num [ovalRatio03]) (by norm_num [ovalRatio03])
    (by norm_num [ellipseArea, majorAxis, minorAxis, npPi, max_def, min_def])
    (by norm_num [fitQuality, ellipseArea, majorAxis, minorAxis, npPi,
      max_def, min_def, ovalRatio03])

theorem childQualifies_eq_true_iff (pa : ℚ) (pb : Rect)
    (child : ContourData) :
    childQualifies pa pb child = true ↔
      0 < child.area ∧ child.area < pa * (4/5) ∧ child.approx.length = 4 ∧
        strictlyInside (boundingRect child.approx) pb = true := by
  unfold childQualifies
  split
  next h =>
    split
    next h4 =>
      constructor
      · intro hs
        exact ⟨h.1, h.2, h4, hs⟩
      · intro hc
        exact hc.2.2.2
    next h4 =>
      constructor
      · intro hs
        exact Bool.noConfusion hs
      · intro hc
        exact absurd hc.2.2.1 h4
  next h =>
    constructor
    · intro hs
      exact Bool.noConfusion hs
    · intro hc
      exact absurd ⟨hc.1, hc.2.1⟩ h

theorem hasNested_eq_true_iff (cs : List ContourData) (c : ContourData)
    (ci : Int) :
    hasNested cs c ci = true ↔
      ∃ child, ci ≠ -1 ∧ cs.get? ci.toNat = some child ∧
        childQualifies c.area (boundingRect c.approx) child = true := by
  unfold hasNested
  split
  next h =>
    split
    next child hg =>
      constructor
      · intro hq
        exact ⟨child, h, hg, hq⟩
      · intro hc
        rcases hc with ⟨child2, _, hg2, hq⟩
        rw [hg] at hg2
        cases Option.some_inj.mp hg2
        exact hq
    next hg =>
      constructor
      · intro hs
        exact Bool.noConfusion hs
      · intro hc
        rcases hc with ⟨child2, _, hg2, _⟩
        rw [hg] at hg2
        cases hg2
  next h =>
    constructor
    · intro hs
      exact Bool.noConfusion hs
    · intro hc
      rcases hc with ⟨child2, hne, _, _⟩
      exact absurd hne h

/-- Outer quadrilateral contour whose measured area is the half-integer
4900.5 (Green-formula contour areas are multiples of one half). -/
def rectParentHalf : ContourData :=
  { area := 4900 + 1/2, approx := [(10, 10), (80, 10), (80, 80), (10, 80)] }

/-- Contour forest pairing the half-integer-area parent with the nested
child. -/
def rectContoursHalf : List ContourData := [rectParentHalf, rectChildC]

theorem rectHalf_process :
    rectProcess rectContoursHalf rectParentHalf 1 =
      some (rectSymbol rectParentHalf) := by
  rw [rectProcess_eq_some]
  refine ⟨by norm_num [rectParentHalf], by norm_num [rectParentHalf], ?_, rfl⟩
  rw [hasNested_eq_true_iff]
  refine ⟨rectChildC, by norm_num, rfl, ?_⟩
  rw [childQualifies_eq_true_iff]
  refine ⟨by norm_num [rectChildC], by norm_num [rectChildC, rectParentHalf],
    by norm_num [rectChildC], ?_⟩
  norm_num [strictlyInside, boundingRect, intsMin, intsMax, rectParentHalf,
    rectChildC, min_def, max_def, Bool.and_eq_true, decide_eq_true_eq]

/-- Counterexample to claim C3: a matched double rectangle whose parent
contour area is 4900.5 is emitted with the integer area field
int(4900.5) = 4900, which is NOT equal to the parent contour area: the code
truncates the measured (float) area to an integer. -/
theorem claim_C3_counterexample :
    rectProcess rectContoursHalf rectParentHalf 1 =
      some (rectSymbol rectParentHalf) ∧
    ((rectSymbol rectParentHalf).area : ℚ) ≠ rectParentHalf.area := by
  refine ⟨rectHalf_process, ?_⟩
  norm_num [rectSymbol, pyInt, rectParentHalf]

/-- Claim C3 amended: for a quadrilateral candidate (contour area at least
500, simplified polygon with exactly 4 vertices, hierarchy index either -1
or in range) the detector emits a symbol iff its first child contour
exists and satisfies: child area positive and below 0.8 of the parent
area, child simplifies to a 4-vertex polygon, child bounding box strictly
inside the parent bounding box on all four sides; the emitted symbol has
confidence 0.85, bounding box and 4-point polygon from the parent
quadrilateral, and area equal to the parent contour area TRUNCATED TO AN
INTEGER (int(area)); a candidate without such a child produces no
symbol. -/
theorem claim_C3_double_rectangle_amended (cs : List ContourData)
    (c : ContourData) (ci : Int)
    (hidx : ci = -1 ∨ (0 ≤ ci ∧ ci.toNat < cs.length))
    (harea : ¬ c.area < 500) (hquad : c.approx.length = 4) :
    ((∃ s, rectProcess cs c ci = some s) ↔
      ∃ child, ci ≠ -1 ∧ cs.get? ci.toNat = some child ∧
        0 < child.area ∧ child.area < c.area * (4/5) ∧
        child.approx.length = 4 ∧
        strictlyInside (boundingRect child.approx)
          (boundingRect c.approx) = true) ∧
    (∀ s, rectProcess cs c ci = some s →
      s.type = SymbolType.DoubleRectangle ∧ s.confidence = 17/20 ∧
      s.boundingBox.x = (boundingRect c.approx).x ∧
      s.boundingBox.y = (boundingRect c.approx).y ∧
      s.boundingBox.width = (boundingRect c.approx).w ∧
      s.boundingBox.height = (boundingRect c.approx).h ∧
      s.boundingBox.points = c.approx ∧ s.area = pyInt c.area) := by
  constructor
  · constructor
    · intro hex
      rcases hex with ⟨s, hs⟩
      rcases (rectProcess_eq_some _ _ _ _).mp hs with ⟨_, _, hn, _⟩
      rcases (hasNested_eq_true_iff _ _ _).mp hn with ⟨child, hne, hg, hq⟩
      rcases (childQualifies_eq_true_iff _ _ _).mp hq with ⟨h1, h2, h3, h4⟩
      exact ⟨child, hne, hg, h1, h2, h3, h4⟩
    · intro hex
      rcases hex with ⟨child, hne, hg, h1, h2, h3, h4⟩
      exact ⟨rectSymbol c, (rectProcess_eq_some _ _ _ _).mpr ⟨harea, hquad,
        (hasNested_eq_true_iff _ _ _).mpr ⟨child, hne, hg,
          (childQualifies_eq_true_iff _ _ _).mpr ⟨h1, h2, h3, h4⟩⟩, rfl⟩⟩
  · intro s hs
    rcases (rectProcess_eq_some _ _ _ _).mp hs with ⟨_, _, _, hsym⟩
    rw [hsym]
    exact ⟨rfl, rfl, rfl, rfl, rfl, rfl, rfl, rfl⟩

/-- Witness for the amended claim C3 at the nested-rectangle demonstration
input. -/
theorem claim_C3_double_rectangle_amended_witness :
    ((∃ s, rectProcess rectDemoContours rectParentC 1 = some s) ↔
      ∃ child, (1 : Int) ≠ -1 ∧
        rectDemoContours.get? (1 : Int).toNat = some child ∧
        0 < child.area ∧ child.area < rectParentC.area * (4/5) ∧
        child.approx.length = 4 ∧
        strictlyInside (boundingRect child.approx)
          (boundingRect rectParentC.approx) = true) ∧
    (∀ s, rectProcess rectDemoContours rectParentC 1 = some s →
      s.type = SymbolType.DoubleRectangle ∧ s.confidence = 17/20 ∧
      s.boundingBox.x = (boundingRect rectParentC.approx).x ∧
      s.boundingBox.y = (boundingRect rectParentC.approx).y ∧
      s.boundingBox.width = (boundingRect rectParentC.approx).w ∧
      s.boundingBox.height = (boundingRect rectParentC.approx).h ∧
      s.boundingBox.points = rectParentC.approx ∧
      s.area = pyInt rectParentC.area) :=
  claim_C3_double_rectangle_amended rectDemoContours rectParentC 1
    (Or.inr ⟨by norm_num, by norm_num [rectDemoContours]⟩)
    (by norm_num [rectParentC]) (by norm_num [rectParentC])

/-! ## Bounding boxes against the image bounds (claim C2) -/

/-- A point lies within the pixel grid [0, width) x [0, height) of the
buffer. -/
def ptInImage (img : Image) (p : Int × Int) : Prop :=
  0 ≤ p.1 ∧ p.1 < (img.width : Int) ∧ 0 ≤ p.2 ∧ p.2 < (img.height : Int)

instance (img : Image) (p : Int × Int) : Decidable (ptInImage img p) := by
  unfold ptInImage
  infer_instance

/-- The bounding box lies entirely within the buffer bounds. -/
def boxWithinImage (img : Image) (b : BoundingBox) : Prop :=
  0 ≤ b.x ∧ 0 ≤ b.y ∧ b.x + b.width ≤ (img.width : Int) ∧
    b.y + b.height ≤ (img.height : Int)

theorem rectSymbol_box (img : Image) (c : ContourData) (hne : c.approx ≠ [])
    (hpts : ∀ p ∈ c.approx, ptInImage img p) :
    0 < (rectSymbol c).boundingBox.width ∧
      0 < (rectSymbol c).boundingBox.height ∧
      boxWithinImage img (rectSymbol c).boundingBox := by
  have h1 := boundingRect_pos c.approx hne
  have h2 := boundingRect_inBounds c.approx (img.width : Int)
    (img.height : Int) hne hpts
  exact ⟨h1.1, h1.2, h2.1, h2.2.1, h2.2.2.1, h2.2.2.2⟩

theorem ovalSymbol_box (img : Image) (c : OvalContour) (fq : ℚ)
    (hne : c.pts ≠ []) (hpts : ∀ p ∈ c.pts, ptInImage img p) :
    0 < (ovalSymbol c fq).boundingBox.width ∧
      0 < (ovalSymbol c fq).boundingBox.height ∧
      boxWithinImage img (ovalSymbol c fq).boundingBox := by
  have h1 := boundingRect_pos c.pts hne
  have h2 := boundingRect_inBounds c.pts (img.width : Int)
    (img.height : Int) hne hpts
  exact ⟨h1.1, h1.2, h2.1, h2.2.1, h2.2.2.1, h2.2.2.2⟩

theorem circleSymbol_box (img : Image) (c : HoughCircle) (h v : Nat)
    (hr : 15 ≤ c.r) (hx1 : c.r ≤ c.cx) (hx2 : c.cx + c.r ≤ img.width)
    (hy1 : c.r ≤ c.cy) (hy2 : c.cy + c.r ≤ img.height)
    (hW : img.width < 65536) (hH : img.height < 65536) :
    0 < (circleSymbol c h v).boundingBox.width ∧
      0 < (circleSymbol c h v).boundingBox.height ∧
      boxWithinImage img (circleSymbol c h v).boundingBox := by
  have hsx : u16sub c.cx c.r = c.cx - c.r := by
    unfold u16sub
    omega
  have hsy : u16sub c.cy c.r = c.cy - c.r := by
    unfold u16sub
    omega
  have hsz : u16 (c.r * 2) = c.r * 2 := by
    unfold u16
    omega
  refine ⟨?_, ?_, ?_, ?_, ?_, ?_⟩ <;>
    simp only [circleSymbol, boxWithinImage, hsx, hsy, hsz] <;> omega

/-- Hough circle overlapping the right border of the 100 by 100 buffer:
center (90, 50), radius 20. -/
def circleEdge : HoughCircle := { cx := 90, cy := 50, r := 20 }

theorem circleEdge_padding : circlePadding circleEdge = 4 := by
  have h : pyInt ((circleEdge.r : ℚ) * (1/5)) = 4 := by
    norm_num [pyInt, circleEdge]
  unfold circlePadding
  rw [h]
  rfl

theorem circleEdge_roi :
    roiX1 circleEdge = 66 ∧ roiY1 circleEdge = 26 ∧
      roiX2 img100 circleEdge = 100 ∧ roiY2 img100 circleEdge = 74 := by
  refine ⟨?_, ?_, ?_, ?_⟩ <;>
    simp only [roiX1, roiY1, roiX2, roiY2, circleEdge_padding] <;> decide

theorem circleEdge_process :
    circleProcess img100 demoLinesOf axisAtan2deg circleEdge =
      some (circleSymbol circleEdge 2 2) := by
  rw [circleProcess_eq_some]
  refine ⟨by norm_num [circleEdge], ?_, ?_, demoLines, rfl, ?_, ?_, ?_, ?_⟩
  · rw [circleEdge_roi.1, circleEdge_roi.2.1, circleEdge_roi.2.2.1,
      circleEdge_roi.2.2.2]
    norm_num
  · rw [circleEdge_roi.1, circleEdge_roi.2.1, circleEdge_roi.2.2.1,
      circleEdge_roi.2.2.2]
    norm_num
  · norm_num [demoLines]
  · rw [demoLines_horizCount]
  · rw [demoLines_vertCount]
  · rw [demoLines_horizCount, demoLines_vertCount]

theorem circleEdge_core :
    circlesWithGridsCore img100 (some [circleEdge]) demoLinesOf
      axisAtan2deg = [circleSymbol circleEdge 2 2] := by
  simp only [circlesWithGridsCore, List.filterMap_cons, List.filterMap_nil,
    circleEdge_process]

/-- Counterexample to claim C2: on the 100 by 100 buffer the grid-circle
detector accepts the circle centered at (90, 50) with radius 20 (its ROI is
clamped, but the emitted square box is not) and emits a bounding box with
x = 70 and width = 40, so x + width = 110 exceeds the image width 100: the
emitted box does NOT lie within the image bounds. -/
theorem claim_C2_counterexample :
    detect_circles_with_grids img100 (some [circleEdge]) demoLinesOf
      axisAtan2deg = Except.ok [circleSymbol circleEdge 2 2] ∧
    ¬ ((circleSymbol circleEdge 2 2).boundingBox.x +
        (circleSymbol circleEdge 2 2).boundingBox.width ≤
      (img100.width : Int)) := by
  constructor
  · have h : cvtColorGray img100 = Except.ok () := by
      norm_num [cvtColorGray, img100]
    simp only [detect_circles_with_grids, h, circleEdge_core]
  · decide

/-- Claim C2 amended: every emitted symbol has a bounding box with positive
width and height; the box lies within the image bounds for DoubleRectangle
and Oval symbols whenever the contour primitives only deliver points inside
the buffer, and for CircleWithGrid symbols under the ADDITIONAL hypothesis
that the detected circle together with its radius fits inside the buffer —
the emitted square (side 2 radius centered on the circle) is not clamped,
so a circle overlapping the border produces an out-of-bounds box (see the
counterexample). -/
theorem claim_C2_boxes_amended (img : Image) (cs : List ContourData)
    (hier : Option (List Int)) (circles : Option (List HoughCircle))
    (linesOf : HoughCircle → Option (List LineSeg))
    (atan2deg : Int → Int → ℚ) (ovs : List OvalContour)
    (rs gs os : List DetectedSymbol)
    (hr : detect_double_rectangles img cs hier = Except.ok rs)
    (hg : detect_circles_with_grids img circles linesOf atan2deg =
      Except.ok gs)
    (ho : detect_ovals img ovs = Except.ok os)
    (hW : img.width < 65536) (hH : img.height < 65536)
    (hcs : ∀ c ∈ cs, ∀ p ∈ c.approx, ptInImage img p)
    (hovs : ∀ c ∈ ovs, ∀ p ∈ c.pts, ptInImage img p)
    (hcircles : ∀ cl, circles = some cl → ∀ c ∈ cl,
      c.r ≤ c.cx ∧ c.cx + c.r ≤ img.width ∧ c.r ≤ c.cy ∧
        c.cy + c.r ≤ img.height)
    (s : DetectedSymbol) (hs : s ∈ rs ++ gs ++ os) :
    0 < s.boundingBox.width ∧ 0 < s.boundingBox.height ∧
      boxWithinImage img s.boundingBox := by
  obtain rfl := detect_double_rectangles_ok _ _ _ _ hr
  obtain rfl := detect_circles_with_grids_ok _ _ _ _ _ hg
  obtain rfl := detect_ovals_ok _ _ _ ho
  rcases List.mem_append.mp hs with hs12 | hs3
  · rcases List.mem_append.mp hs12 with hs1 | hs2
    · rcases mem_doubleRectanglesCore _ _ _ hs1 with ⟨fc, _, pc, hmem, hp⟩
      rcases (rectProcess_eq_some _ _ _ _).mp hp with ⟨_, hquad, _, hsym⟩
      have hc1 : pc.1 ∈ cs := (List.of_mem_zip hmem).1
      have hne : pc.1.approx ≠ [] :=
        List.ne_nil_of_length_pos (by omega)
      rw [hsym]
      exact rectSymbol_box img pc.1 hne (hcs pc.1 hc1)
    · rcases mem_circlesWithGridsCore _ _ _ _ _ hs2 with
        ⟨cl, hcl, c, hmem, hp⟩
      rcases (circleProcess_eq_some _ _ _ _ _).mp hp with
        ⟨hr15, _, _, lines, _, _, _, _, hsym⟩
      rcases hcircles cl hcl c hmem with ⟨h1, h2, h3, h4⟩
      rw [hsym]
      exact circleSymbol_box img c _ _ (by omega) h1 h2 h3 h4 hW hH
  · rcases mem_ovalsCore _ _ hs3 with ⟨c, hmem, hp⟩
    rcases (ovalProcess_eq_some _ _).mp hp with
      ⟨_, hlen, axes, _, _, _, _, hsym⟩
    have hne : c.pts ≠ [] := List.ne_nil_of_length_pos (by omega)
    rw [hsym]
    exact ovalSymbol_box img c _ hne (hovs c hmem)

/-- Witness for the amended claim C2: the in-bounds demonstration circle
symbol has a positive box lying within the 100 by 100 buffer. -/
theorem claim_C2_boxes_amended_witness :
    0 < (circleSymbol circleDemo 2 2).boundingBox.width ∧
      0 < (circleSymbol circleDemo 2 2).boundingBox.height ∧
      boxWithinImage img100 (circleSymbol circleDemo 2 2).boundingBox :=
  claim_C2_boxes_amended img100 rectDemoContours rectDemoHier
    (some [circleDemo]) demoLinesOf axisAtan2deg [ovalDemo]
    [rectSymbol rectParentC] [circleSymbol circleDemo 2 2]
    [ovalSymbol ovalDemo (fitQuality ovalDemo.area (80, 40))]
    (by simp [detect_double_rectangles, cvtColorGray, img100, rectDemo_eval])
    (by
      have h : cvtColorGray img100 = Except.ok () := by
        norm_num [cvtColorGray, img100]
      simp only [detect_circles_with_grids, h, circleDemo_core])
    (by simp [detect_ovals, cvtColorGray, img100, ovalDemo_core])
    (by norm_num [img100]) (by norm_num [img100])
    (by decide) (by decide)
    (by
      intro cl hcl
      injection hcl with h
      rw [← h]
      decide)
    (circleSymbol circleDemo 2 2) (by simp)
